import Mathlib

/-!
# Verification of the `numbers` reservation pool (`num_fetcher`)

Shallow embedding of the phone-number reservation subsystem shared by
`sumsung/misc/num_fetcher.py` and `shein/misc/num_fetcher.py`, together
with the pure code-extraction core of `sumsung/mail.py`.

The `numbers` table is modelled as a list of rows.  Each SQL operation is
translated statement by statement:

* `SELECT ... WHERE number=%s FOR UPDATE` + `fetchone()` becomes
  `List.find?` on the row predicate;
* `UPDATE ... WHERE c` becomes a `List.map` that rewrites exactly the rows
  satisfying `c`, with `cursor.rowcount` modelled as `List.countP c`
  (every update here changes each matched row, so matched = changed);
* `conn.commit()` publishes the updated table, `conn.rollback()` discards
  the uncommitted work, i.e. the operation returns the original table.

`ORDER BY RAND() LIMIT 1` is modelled by passing the random draw as an
explicit index `k` into the list of eligible rows.
-/

/-- One row of the shared `numbers` table (schema of §6 of the spec).
`belong_to` is the state column: `"master"` = available, `"locked"` =
reserved.  `num_limit` is the quota. -/
structure NumberRow where
  id : Nat
  user_id : Option String := none
  range_id : String
  data_value : Option String := none
  full_text : Option String := none
  country_name : Option String := none
  country_code : Option String := none
  num_limit : Int
  number : String
  belong_to : String
  added_at : Nat := 0
  login_cmnt : Option String := none
deriving DecidableEq, Repr

/-- The `numbers` table. -/
abbrev Table := List NumberRow

/-- Row predicate of the eligibility scan in `get_random_number`:
`belong_to='master' AND num_limit>0 AND range_id=%s [AND user_id=%s]`.
The `user_id` filter is only added when the Python value is truthy
(`if user_id:`), i.e. present and non-empty. -/
def eligibleRow (range_id : String) (user_id : Option String) (r : NumberRow) : Bool :=
  r.belong_to == "master" && decide (0 < r.num_limit) && r.range_id == range_id &&
    (match user_id with
     | none => true
     | some u => if u == "" then true else r.user_id == some u)

/-- `get_random_number(conn, range_id, user_id=None)`: pick one eligible row
at random (`ORDER BY RAND() LIMIT 1`), performing no mutation.  The random
draw is the explicit index `k` into the eligible rows. -/
def get_random_number (t : Table) (range_id : String) (user_id : Option String)
    (k : Nat) : Option NumberRow :=
  let el := t.filter (eligibleRow range_id user_id)
  el.get? (k % el.length)

/-- Condition of `reserve_number`'s guarded update:
`WHERE id=%s AND belong_to='master'`. -/
def reservePred (rowId : Nat) (r : NumberRow) : Bool :=
  r.id == rowId && r.belong_to == "master"

/-- Effect of `UPDATE numbers SET belong_to='locked' WHERE id=%s AND
belong_to='master'` on one row. -/
def applyReserve (rowId : Nat) (r : NumberRow) : NumberRow :=
  if reservePred rowId r then { r with belong_to := "locked" } else r

/-- `reserve_number(conn, number)`: lock the row for `number`
(`SELECT ... FOR UPDATE`), require `belong_to='master'`, then conditionally
update `belong_to='locked'`; zero affected rows means a lost race and the
transaction is rolled back.  Returns `true` on success. -/
def reserve_number (t : Table) (number : String) : Bool × Table :=
  match t.find? (fun r => r.number == number) with
  | none => (false, t)
  | some row =>
    if row.belong_to != "master" then (false, t)
    else if t.countP (reservePred row.id) == 0 then (false, t)
    else (true, t.map (applyReserve row.id))

/-- Condition of `lock_and_decrement`'s guarded update:
`WHERE id=%s AND belong_to='master' AND num_limit>0`. -/
def consumePred (rowId : Nat) (r : NumberRow) : Bool :=
  r.id == rowId && r.belong_to == "master" && decide (0 < r.num_limit)

/-- Effect of `UPDATE numbers SET belong_to='locked',
num_limit = num_limit - 1 WHERE ...` on one row. -/
def applyConsume (rowId : Nat) (r : NumberRow) : NumberRow :=
  if consumePred rowId r then
    { r with belong_to := "locked", num_limit := r.num_limit - 1 }
  else r

/-- `lock_and_decrement(conn, number)`: lock the row, require
`belong_to='master'` and `num_limit>0`, then atomically set
`belong_to='locked'` and decrement `num_limit`. -/
def lock_and_decrement (t : Table) (number : String) : Bool × Table :=
  match t.find? (fun r => r.number == number) with
  | none => (false, t)
  | some row =>
    if row.belong_to != "master" || decide (row.num_limit ≤ 0) then (false, t)
    else if t.countP (consumePred row.id) == 0 then (false, t)
    else (true, t.map (applyConsume row.id))

/-- Condition of `free_number`'s single-statement update:
`WHERE number=%s AND belong_to='locked'`. -/
def freePred (number : String) (r : NumberRow) : Bool :=
  r.number == number && r.belong_to == "locked"

/-- Effect of `UPDATE numbers SET belong_to='master', num_limit =
num_limit - 1 WHERE number=%s AND belong_to='locked'` on one row.  Note
that the source really does decrement `num_limit` here, in both module
variants, although the sumsung docstring says it does not. -/
def applyFree (number : String) (r : NumberRow) : NumberRow :=
  if freePred number r then
    { r with belong_to := "master", num_limit := r.num_limit - 1 }
  else r

/-- `free_number(conn, number)`: one conditional update followed by commit;
returns whether any row was affected (`updated > 0`). -/
def free_number (t : Table) (number : String) : Bool × Table :=
  (decide (0 < t.countP (freePred number)), t.map (applyFree number))

/-- `update_login_cmnt(conn, number, comment)` (shein variant): set
`login_cmnt` for the row matching `number` and commit immediately.
`rowcount` counts changed rows (pymysql default), i.e. matched rows whose
`login_cmnt` actually differs from the new value. -/
def update_login_cmnt (t : Table) (number : String) (comment : String) : Bool × Table :=
  (decide (0 < t.countP (fun r => r.number == number && r.login_cmnt != some comment)),
   t.map (fun r => if r.number == number then { r with login_cmnt := some comment } else r))

/-! ## Concrete tables used in scenario evaluations -/

/-- Seed row of the spec's concrete scenario (§8, property 8):
`number="4471111"`, `range_id="R1"`, `quota=1`, `state=available`. -/
def scRow : NumberRow :=
  { id := 1, range_id := "R1", num_limit := 1, number := "4471111", belong_to := "master" }

/-- A reserved (`locked`) row with quota 5, used to evaluate `free_number`. -/
def lockedRow : NumberRow :=
  { id := 2, range_id := "R", num_limit := 5, number := "n1", belong_to := "locked" }

/-- An available row whose quota is already 0. -/
def zeroQuotaRow : NumberRow :=
  { id := 3, range_id := "R", num_limit := 0, number := "z1", belong_to := "master" }

/-- C3: evaluating `free_number` on a reserved row shows that a successful
free does NOT leave the quota unchanged: the source's update statement is
`SET belong_to='master', num_limit = num_limit - 1`, so freeing the locked
row with quota 5 flips the state back AND drops the quota to 4, although
the function's own docstring says "Does not change num_limit". -/
theorem free_number_decrements_quota :
    lockedRow.num_limit = 5 ∧
    free_number [lockedRow] "n1" =
      (true, [{ lockedRow with belong_to := "master", num_limit := 4 }]) := by
  exact ⟨rfl, rfl⟩

/-- C4: the spec's concrete scenario evaluated against the code.  The run
agrees with the spec through the two Reserve calls, but diverges at Free:
the code leaves quota 0 (the spec says quota still 1), hence the following
`lock_and_decrement` returns Conflict (`false`) where the spec expects Ok,
and the final `get_random_number` finds no eligible row. -/
theorem concrete_scenario_code_behavior :
    get_random_number [scRow] "R1" none 0 = some scRow ∧
    reserve_number [scRow] "4471111" = (true, [{ scRow with belong_to := "locked" }]) ∧
    reserve_number [{ scRow with belong_to := "locked" }] "4471111" =
      (false, [{ scRow with belong_to := "locked" }]) ∧
    free_number [{ scRow with belong_to := "locked" }] "4471111" =
      (true, [{ scRow with num_limit := 0 }]) ∧
    lock_and_decrement [{ scRow with num_limit := 0 }] "4471111" =
      (false, [{ scRow with num_limit := 0 }]) ∧
    get_random_number [{ scRow with num_limit := 0 }] "R1" none 0 = none := by
  refine ⟨rfl, rfl, rfl, rfl, rfl, rfl⟩

/-- C7: the quota CAN go below 0 under the pool operations.
`lock_and_decrement` itself correctly refuses at quota 0, but
`reserve_number` ignores the quota, and `free_number` decrements it
unconditionally on every successful free, so Reserve followed by Free on
an available row with quota 0 drives `num_limit` to -1. -/
theorem quota_goes_negative :
    lock_and_decrement [zeroQuotaRow] "z1" = (false, [zeroQuotaRow]) ∧
    reserve_number [zeroQuotaRow] "z1" =
      (true, [{ zeroQuotaRow with belong_to := "locked" }]) ∧
    free_number [{ zeroQuotaRow with belong_to := "locked" }] "z1" =
      (true, [{ zeroQuotaRow with num_limit := -1 }]) ∧
    ({ zeroQuotaRow with num_limit := -1 } : NumberRow).num_limit < 0 := by
  refine ⟨rfl, rfl, rfl, by decide⟩

/-! ## Failure injection: the `try/except: rollback; raise` wrappers -/

/-- Outcome of a pool operation when the underlying store may throw.
`ok ret db` is a normal return with the committed table `db`;
`exn rolledBack db` is a re-raised store exception, where `rolledBack`
records whether `conn.rollback()` ran before the raise and `db` is the
committed table the caller observes afterwards. -/
inductive DbOutcome where
  | ok (ret : Bool) (db : Table)
  | exn (rolledBack : Bool) (db : Table)
deriving DecidableEq, Repr

/-- `reserve_number` with an injected store failure: `failAt` names the
statement that throws (0 = the `SELECT ... FOR UPDATE`, 1 = the `UPDATE`,
2 = the `commit`).  Any throw lands in the function's `except` handler,
which rolls back (discarding all uncommitted work) and re-raises. -/
def reserve_number_f (t : Table) (number : String) (failAt : Option Nat) : DbOutcome :=
  if failAt == some 0 then .exn true t
  else match t.find? (fun r => r.number == number) with
  | none => .ok false t
  | some row =>
    if row.belong_to != "master" then .ok false t
    else if failAt == some 1 then .exn true t
    else if t.countP (reservePred row.id) == 0 then .ok false t
    else if failAt == some 2 then .exn true t
    else .ok true (t.map (applyReserve row.id))

/-- `lock_and_decrement` with an injected store failure (same numbering of
statements as `reserve_number_f`). -/
def lock_and_decrement_f (t : Table) (number : String) (failAt : Option Nat) : DbOutcome :=
  if failAt == some 0 then .exn true t
  else match t.find? (fun r => r.number == number) with
  | none => .ok false t
  | some row =>
    if row.belong_to != "master" || decide (row.num_limit ≤ 0) then .ok false t
    else if failAt == some 1 then .exn true t
    else if t.countP (consumePred row.id) == 0 then .ok false t
    else if failAt == some 2 then .exn true t
    else .ok true (t.map (applyConsume row.id))

/-- `free_number` with an injected store failure (0 = the `UPDATE`,
1 = the `commit`). -/
def free_number_f (t : Table) (number : String) (failAt : Option Nat) : DbOutcome :=
  if failAt == some 0 then .exn true t
  else if failAt == some 1 then .exn true t
  else .ok (decide (0 < t.countP (freePred number))) (t.map (applyFree number))

/-- `update_login_cmnt` with an injected store failure (0 = the `UPDATE`,
1 = the `commit`). -/
def update_login_cmnt_f (t : Table) (number : String) (comment : String)
    (failAt : Option Nat) : DbOutcome :=
  if failAt == some 0 then .exn true t
  else if failAt == some 1 then .exn true t
  else .ok (decide (0 < t.countP (fun r => r.number == number && r.login_cmnt != some comment)))
    (t.map (fun r => if r.number == number then { r with login_cmnt := some comment } else r))

/-- With no failure injected, `reserve_number_f` agrees with
`reserve_number`. -/
theorem reserve_number_f_none (t : Table) (n : String) :
    reserve_number_f t n none = .ok (reserve_number t n).1 (reserve_number t n).2 := by
  unfold reserve_number_f reserve_number
  cases t.find? (fun r => r.number == n) with
  | none => rfl
  | some row => by_cases h1 : row.belong_to != "master" <;>
      by_cases h2 : t.countP (reservePred row.id) == 0 <;> simp [h1, h2]

lemma reserve_number_f_exn (t : Table) (n : String) (fa : Option Nat) (rb : Bool)
    (s : Table) (h : reserve_number_f t n fa = .exn rb s) : rb = true ∧ s = t := by
  unfold reserve_number_f at h
  repeat' split at h
  all_goals simp_all

lemma lock_and_decrement_f_exn (t : Table) (n : String) (fa : Option Nat) (rb : Bool)
    (s : Table) (h : lock_and_decrement_f t n fa = .exn rb s) : rb = true ∧ s = t := by
  unfold lock_and_decrement_f at h
  repeat' split at h
  all_goals simp_all

lemma free_number_f_exn (t : Table) (n : String) (fa : Option Nat) (rb : Bool)
    (s : Table) (h : free_number_f t n fa = .exn rb s) : rb = true ∧ s = t := by
  unfold free_number_f at h
  repeat' split at h
  all_goals simp_all

lemma update_login_cmnt_f_exn (t : Table) (n c : String) (fa : Option Nat) (rb : Bool)
    (s : Table) (h : update_login_cmnt_f t n c fa = .exn rb s) : rb = true ∧ s = t := by
  unfold update_login_cmnt_f at h
  repeat' split at h
  all_goals simp_all

/-- C8: every mutating pool operation that surfaces a store exception does
so only after an explicit rollback (`rolledBack = true`), and the table the
caller observes afterwards is exactly the pre-transaction table: no partial
state+quota write survives, wherever inside the operation the store threw. -/
theorem mutating_ops_rollback_before_reraise (t : Table) (n c : String)
    (fa : Option Nat) (rb : Bool) (s : Table)
    (h : reserve_number_f t n fa = .exn rb s ∨ lock_and_decrement_f t n fa = .exn rb s ∨
      free_number_f t n fa = .exn rb s ∨ update_login_cmnt_f t n c fa = .exn rb s) :
    rb = true ∧ s = t := by
  rcases h with h | h | h | h
  · exact reserve_number_f_exn t n fa rb s h
  · exact lock_and_decrement_f_exn t n fa rb s h
  · exact free_number_f_exn t n fa rb s h
  · exact update_login_cmnt_f_exn t n c fa rb s h

/-- Witness for C8: a store failure injected into the `UPDATE` statement of
`reserve_number` on a one-row table is re-raised after rollback with the
table unchanged. -/
theorem mutating_ops_rollback_before_reraise_witness :
    true = true ∧ ([scRow] : Table) = [scRow] :=
  mutating_ops_rollback_before_reraise [scRow] "4471111" "c" (some 1) true [scRow]
    (Or.inl (by decide))

/-! ## Helper lemmas -/

lemma applyReserve_number (i : Nat) (r : NumberRow) : (applyReserve i r).number = r.number := by
  unfold applyReserve; split <;> rfl

lemma applyConsume_number (i : Nat) (r : NumberRow) : (applyConsume i r).number = r.number := by
  unfold applyConsume; split <;> rfl

lemma applyFree_number (n : String) (r : NumberRow) : (applyFree n r).number = r.number := by
  unfold applyFree; split <;> rfl

/-- `find?` on `number` commutes with a row map that preserves `number`. -/
lemma find?_map_number (f : NumberRow → NumberRow) (hf : ∀ r, (f r).number = r.number)
    (t : Table) (n : String) :
    (t.map f).find? (fun r => r.number == n) = (t.find? (fun r => r.number == n)).map f := by
  induction t with
  | nil => rfl
  | cons a l ih =>
    cases h : (a.number == n) with
    | true => simp [List.find?_cons, hf, h]
    | false => simp [List.find?_cons, hf, h, ih]

lemma countP_ne_zero_of_mem {p : NumberRow → Bool} {t : Table} {r : NumberRow}
    (hmem : r ∈ t) (hp : p r = true) : t.countP p ≠ 0 := by
  intro h0
  exact absurd hp (by simpa using List.countP_eq_zero.mp h0 r hmem)

/-- Core success lemma for `reserve_number`: if the row lookup finds a row
in the `master` state, the guarded update succeeds and commits. -/
lemma reserve_number_succeeds (t : Table) (n : String) (r : NumberRow)
    (hfind : t.find? (fun x => x.number == n) = some r)
    (hmaster : r.belong_to = "master") :
    reserve_number t n = (true, t.map (applyReserve r.id)) := by
  have hmem := List.mem_of_find?_eq_some hfind
  have hcnt : t.countP (reservePred r.id) ≠ 0 :=
    countP_ne_zero_of_mem hmem (by simp [reservePred, hmaster])
  unfold reserve_number
  rw [hfind]
  simp [hmaster, hcnt]

lemma applyReserve_self (r : NumberRow) (hmaster : r.belong_to = "master") :
    applyReserve r.id r = { r with belong_to := "locked" } := by
  simp [applyReserve, reservePred, hmaster]

/-- C1: mutual exclusion of Reserve.  (a) Against an `available` row, the
first `reserve_number` call returns Ok (`true`) and flips the row to
`locked`; replaying `reserve_number` against the resulting state returns
Conflict (`false`) and changes nothing, so of two calls racing on the same
initial available state exactly the serialized-first one wins.  (b) Reserve
returns Ok only when the addressed row's state was `master`. -/
theorem reserve_mutual_exclusion :
    (∀ (t : Table) (n : String) (r : NumberRow),
        t.find? (fun x => x.number == n) = some r → r.belong_to = "master" →
        ∃ t1, reserve_number t n = (true, t1) ∧
          reserve_number t1 n = (false, t1) ∧
          t1.find? (fun x => x.number == n) = some { r with belong_to := "locked" }) ∧
    (∀ (t t1 : Table) (n : String), reserve_number t n = (true, t1) →
        ∃ r, t.find? (fun x => x.number == n) = some r ∧ r.belong_to = "master") := by
  constructor
  · intro t n r hfind hmaster
    have hfind1 : (t.map (applyReserve r.id)).find? (fun x => x.number == n)
        = some { r with belong_to := "locked" } := by
      rw [find?_map_number _ (applyReserve_number r.id) t n, hfind]
      simp [applyReserve_self r hmaster]
    refine ⟨t.map (applyReserve r.id), reserve_number_succeeds t n r hfind hmaster, ?_, hfind1⟩
    unfold reserve_number
    rw [hfind1]
    simp
  · intro t t1 n h
    unfold reserve_number at h
    split at h
    · simp at h
    next row hfind =>
      split at h
      · simp at h
      next hb =>
        exact ⟨row, hfind, by simpa using hb⟩

/-- Witness for C1 at the concrete seed row. -/
theorem reserve_mutual_exclusion_witness :
    ∃ t1, reserve_number [scRow] "4471111" = (true, t1) ∧
      reserve_number t1 "4471111" = (false, t1) ∧
      t1.find? (fun x => x.number == "4471111") = some { scRow with belong_to := "locked" } :=
  reserve_mutual_exclusion.1 [scRow] "4471111" scRow (by decide) rfl

/-- C10: `reserve_number` never examines the quota: any row found in the
`master` state is reserved successfully, whatever its `num_limit` — the
row `r` here is arbitrary, including `num_limit = 0` or negative. -/
theorem reserve_number_ignores_quota (t : Table) (n : String) (r : NumberRow)
    (hfind : t.find? (fun x => x.number == n) = some r)
    (hmaster : r.belong_to = "master") :
    (reserve_number t n).1 = true := by
  rw [reserve_number_succeeds t n r hfind hmaster]

/-- Witness for C10: a `master` row with quota 0 is still reserved. -/
theorem reserve_number_ignores_quota_witness :
    zeroQuotaRow.num_limit = 0 ∧ (reserve_number [zeroQuotaRow] "z1").1 = true :=
  ⟨rfl, reserve_number_ignores_quota [zeroQuotaRow] "z1" zeroQuotaRow (by decide) rfl⟩

/-- A `master` row with quota 3 used as witness input for C2. -/
def consRow : NumberRow :=
  { id := 4, range_id := "R", num_limit := 3, number := "c1", belong_to := "master" }

/-- C2: `lock_and_decrement` is all-or-nothing.  If it returns Ok (`true`),
the addressed row was `master` with positive quota and now reads `locked`
with quota exactly one less; if it returns `false` (Conflict/NotFound), the
table — hence the row's state and quota — is completely unchanged.  A
state flip without the decrement, or a decrement without the flip, is
impossible as a result of this single call. -/
theorem lock_and_decrement_atomic :
    (∀ (t t1 : Table) (n : String), lock_and_decrement t n = (true, t1) →
      ∃ r, t.find? (fun x => x.number == n) = some r ∧ r.belong_to = "master" ∧
        0 < r.num_limit ∧
        t1.find? (fun x => x.number == n) =
          some { r with belong_to := "locked", num_limit := r.num_limit - 1 }) ∧
    (∀ (t t1 : Table) (n : String), lock_and_decrement t n = (false, t1) → t1 = t) := by
  constructor
  · intro t t1 n h
    unfold lock_and_decrement at h
    split at h
    · simp at h
    next row hfind =>
      split at h
      · simp at h
      next hcond =>
        split at h
        · simp at h
        next hcnt =>
          have hm : row.belong_to = "master" ∧ 0 < row.num_limit := by
            simpa [not_or, Int.not_le] using hcond
          have ht1 : t.map (applyConsume row.id) = t1 := by simpa using h
          refine ⟨row, hfind, hm.1, hm.2, ?_⟩
          rw [← ht1, find?_map_number _ (applyConsume_number row.id) t n, hfind]
          simp [applyConsume, consumePred, hm.1, hm.2]
  · intro t t1 n h
    unfold lock_and_decrement at h
    split at h
    · simpa using h.symm
    next row hfind =>
      split at h
      · simpa using h.symm
      · split at h
        · simpa using h.symm
        · simp at h

/-- Witness for C2 at a concrete one-row table with quota 3. -/
theorem lock_and_decrement_atomic_witness :
    ∃ r, ([consRow] : Table).find? (fun x => x.number == "c1") = some r ∧
      r.belong_to = "master" ∧ 0 < r.num_limit ∧
      ([{ consRow with belong_to := "locked", num_limit := 2 }] : Table).find?
          (fun x => x.number == "c1") =
        some { r with belong_to := "locked", num_limit := r.num_limit - 1 } :=
  lock_and_decrement_atomic.1 [consRow]
    [{ consRow with belong_to := "locked", num_limit := 2 }] "c1" (by decide)

lemma map_applyFree_eq_self {t : Table} {n : String}
    (hp : ∀ r ∈ t, freePred n r = false) : t.map (applyFree n) = t := by
  induction t with
  | nil => rfl
  | cons a l ih =>
    have ha : applyFree n a = a := by
      unfold applyFree
      rw [if_neg (by simp [hp a (List.mem_cons_self a l)])]
    simp only [List.map_cons, ha, ih fun r hr => hp r (List.mem_cons_of_mem a hr)]

/-- `free_number` is a strict no-op on a table with no matching `locked`
row: zero rows affected, `NotModified` result. -/
lemma free_number_noop {t : Table} {n : String}
    (hp : ∀ r ∈ t, freePred n r = false) : free_number t n = (false, t) := by
  have hc : t.countP (freePred n) = 0 := List.countP_eq_zero.mpr (by
    intro a ha
    simp [hp a ha])
  unfold free_number
  simp [hc, map_applyFree_eq_self hp]

/-- C6: Free is idempotent against double-free.  (a) When every row of the
addressed number is already `available` (`master`), `free_number` affects
zero rows, returns `false` (NotModified) and leaves the whole table — in
particular state and quota — unchanged.  (b) Consequently a second
`free_number` right after a first one on the same number is always a
no-op, so Free;Free leaves the table exactly as a single Free does. -/
theorem free_number_idempotent :
    (∀ (t : Table) (n : String),
        (∀ r ∈ t, r.number = n → r.belong_to = "master") →
        free_number t n = (false, t)) ∧
    (∀ (t : Table) (n : String),
        free_number (free_number t n).2 n = (false, (free_number t n).2)) := by
  constructor
  · intro t n hav
    refine free_number_noop ?_
    intro r hr
    unfold freePred
    by_cases hn : r.number = n
    · simp [hn, hav r hr hn]
    · simp [hn]
  · intro t n
    refine free_number_noop ?_
    intro r hr
    rcases List.mem_map.mp hr with ⟨x, _, rfl⟩
    unfold applyFree
    cases hfx : freePred n x with
    | false => simpa using hfx
    | true => simp [freePred]

/-- Witness for C6: freeing the already-available seed row is a no-op. -/
theorem free_number_idempotent_witness :
    free_number [scRow] "4471111" = (false, [scRow]) :=
  free_number_idempotent.1 [scRow] "4471111" (by decide)

/-! ## Concrete pool of spec §8 property 5: A eligible, B quota 0, C reserved -/

def rowA : NumberRow :=
  { id := 10, range_id := "R", num_limit := 2, number := "A", belong_to := "master" }

def rowB : NumberRow :=
  { id := 11, range_id := "R", num_limit := 0, number := "B", belong_to := "master" }

def rowC : NumberRow :=
  { id := 12, range_id := "R", num_limit := 5, number := "C", belong_to := "locked" }

/-- C5: `get_random_number` is read-only by construction (it is a pure
function of the table) and only ever returns rows of the table satisfying
`belong_to='master' AND num_limit>0 AND range_id` matching — with the
`user_id` filter additionally enforced whenever a (truthy, i.e. non-empty)
`user_id` is supplied — and it returns the NotFound signal (`none`) as soon
as no row satisfies the eligibility predicate, for every random draw `k`. -/
theorem get_random_number_eligibility :
    (∀ (t : Table) (rid : String) (uid : Option String) (k : Nat) (r : NumberRow),
        get_random_number t rid uid k = some r →
        r ∈ t ∧ eligibleRow rid uid r = true ∧ r.belong_to = "master" ∧
          0 < r.num_limit ∧ r.range_id = rid ∧
          ∀ u, uid = some u → u ≠ "" → r.user_id = some u) ∧
    (∀ (t : Table) (rid : String) (uid : Option String) (k : Nat),
        (∀ r ∈ t, eligibleRow rid uid r = false) →
        get_random_number t rid uid k = none) := by
  constructor
  · intro t rid uid k r h
    unfold get_random_number at h
    have hmem : r ∈ t.filter (eligibleRow rid uid) := List.get?_mem h
    have hmem' := List.mem_filter.mp hmem
    have hel := hmem'.2
    have hparts : r.belong_to = "master" ∧ 0 < r.num_limit ∧ r.range_id = rid := by
      unfold eligibleRow at hel
      simp only [Bool.and_eq_true, beq_iff_eq, decide_eq_true_eq] at hel
      exact ⟨hel.1.1.1, hel.1.1.2, hel.1.2⟩
    refine ⟨hmem'.1, hel, hparts.1, hparts.2.1, hparts.2.2, ?_⟩
    intro u hu hne
    subst hu
    unfold eligibleRow at hel
    simp only [Bool.and_eq_true, beq_iff_eq] at hel
    have := hel.2
    rw [if_neg (by simpa using hne)] at this
    simpa using this
  · intro t rid uid k hnone
    unfold get_random_number
    have : t.filter (eligibleRow rid uid) = [] := List.filter_eq_nil_iff.mpr (by
      intro a ha
      simp [hnone a ha])
    simp [this]

/-- Witness for C5: in the pool A(quota 2, available), B(quota 0,
available), C(quota 5, reserved) of range "R", the returned candidate is A
and it satisfies the eligibility predicate. -/
theorem get_random_number_eligibility_witness :
    rowA ∈ ([rowA, rowB, rowC] : Table) ∧ eligibleRow "R" none rowA = true ∧
      rowA.belong_to = "master" ∧ 0 < rowA.num_limit :=
  have h := (get_random_number_eligibility.1 [rowA, rowB, rowC] "R" none 0 rowA (by decide))
  ⟨h.1, h.2.1, h.2.2.1, h.2.2.2.1⟩

/-!
## Mailbox code extraction (`sumsung/mail.py`)

The pure core behind `fetch_codes_for_address`: for each message the
visible text is searched with `re.findall(r'\b([0-9]{6})\b', text)` and the
hits are de-duplicated keeping first occurrences
(`process_message_for_codes`); the per-message lists are then merged into
one result list, again keeping only first occurrences, in discovery order
(`fetch_codes_for_address`).  Messages are modelled by their visible text.

A `\b`-anchored `[0-9]{6}` match is a maximal run of word characters that
consists of exactly six decimal digits (a digit is a word character, so
the run may not touch any further word character on either side);
`isWordChar` is the ASCII reading of the regex class `\w`.
-/

def isWordChar (c : Char) : Bool := c.isAlphanum || c == '_'

/-- Split a text into its maximal runs of word characters (`acc` holds the
current run, reversed). -/
def wordRunsAux : List Char → List Char → List (List Char)
  | [], acc => if acc.isEmpty then [] else [acc.reverse]
  | c :: rest, acc =>
    if isWordChar c then wordRunsAux rest (c :: acc)
    else if acc.isEmpty then wordRunsAux rest []
    else acc.reverse :: wordRunsAux rest []

def wordRuns (s : List Char) : List (List Char) := wordRunsAux s []

/-- Does a maximal word run match `\b[0-9]{6}\b`? -/
def isSixDigitRun (run : List Char) : Bool := run.length == 6 && run.all Char.isDigit

/-- `re.findall(r'\b([0-9]{6})\b', text)`: the 6-digit codes of one text,
in order of occurrence, duplicates kept. -/
def findSixDigitCodes (s : List Char) : List String :=
  ((wordRuns s).filter isSixDigitRun).map fun run => String.mk run

/-- The `seen`-set loop of `process_message_for_codes`: keep the first
occurrence of each element, dropping anything already in `seen`. -/
def dedupAux : List String → List String → List String
  | [], _ => []
  | c :: rest, seen =>
    if seen.contains c then dedupAux rest seen else c :: dedupAux rest (c :: seen)

def dedupCodes (l : List String) : List String := dedupAux l []

/-- `process_message_for_codes`: unique 6-digit codes of one message's
visible text, first occurrences first. -/
def process_message_for_codes (text : List Char) : List String :=
  dedupCodes (findSixDigitCodes text)

/-- One step of the accumulation loop in `fetch_codes_for_address`:
`if c not in out: out.append(c)`. -/
def addUnseen (out : List String) (c : String) : List String :=
  if out.contains c then out else out ++ [c]

/-- `fetch_codes_for_address`: collect the per-message codes over all
messages of the address, keeping only first occurrences. -/
def fetch_codes_for_address (msgs : List (List Char)) : List String :=
  msgs.foldl (fun out m => (process_message_for_codes m).foldl addUnseen out) []

lemma mem_findSixDigitCodes {s : List Char} {c : String}
    (h : c ∈ findSixDigitCodes s) : c.length = 6 ∧ c.data.all Char.isDigit = true := by
  unfold findSixDigitCodes at h
  rcases List.mem_map.mp h with ⟨run, hrun, rfl⟩
  have hp := (List.mem_filter.mp hrun).2
  unfold isSixDigitRun at hp
  simp only [Bool.and_eq_true, beq_iff_eq] at hp
  exact ⟨hp.1, hp.2⟩

lemma dedupAux_subset : ∀ (l seen : List String), ∀ c ∈ dedupAux l seen, c ∈ l := by
  intro l
  induction l with
  | nil => intro seen c hc; cases hc
  | cons a rest ih =>
    intro seen c hc
    unfold dedupAux at hc
    split at hc
    · exact List.mem_cons_of_mem a (ih seen c hc)
    · rcases List.mem_cons.mp hc with h | h
      · exact h ▸ List.mem_cons_self a rest
      · exact List.mem_cons_of_mem a (ih (a :: seen) c h)

lemma dedupAux_invariant : ∀ (l seen : List String),
    (∀ x ∈ dedupAux l seen, x ∉ seen) ∧ (dedupAux l seen).Nodup := by
  intro l
  induction l with
  | nil =>
    intro seen
    refine ⟨?_, ?_⟩
    · intro x hx
      simp [dedupAux] at hx
    · simp [dedupAux]
  | cons a rest ih =>
    intro seen
    unfold dedupAux
    split
    · exact ⟨fun x hx => ((ih seen).1 x hx), (ih seen).2⟩
    next hna =>
      constructor
      · intro x hx hxs
        rcases List.mem_cons.mp hx with h | h
        · subst h
          exact hna (List.elem_iff.mpr hxs)
        · exact (ih (a :: seen)).1 x h (List.mem_cons_of_mem a hxs)
      · refine List.nodup_cons.mpr ⟨?_, (ih (a :: seen)).2⟩
        intro hmem
        exact (ih (a :: seen)).1 a hmem (List.mem_cons_self a seen)

lemma dedupAux_nil (seen : List String) : dedupAux [] seen = [] := rfl

lemma dedupAux_cons (c : String) (rest seen : List String) :
    dedupAux (c :: rest) seen =
      if seen.contains c then dedupAux rest seen else c :: dedupAux rest (c :: seen) := rfl

/-- `dedupAux` only inspects the membership of `seen`, not its shape. -/
lemma dedupAux_congr : ∀ (l s1 s2 : List String), (∀ x, x ∈ s1 ↔ x ∈ s2) →
    dedupAux l s1 = dedupAux l s2 := by
  intro l
  induction l with
  | nil => intro s1 s2 _; rfl
  | cons a rest ih =>
    intro s1 s2 h
    have hc : s1.contains a = s2.contains a := by
      cases hb2 : s2.contains a with
      | true => exact List.elem_iff.mpr ((h a).mpr (List.elem_iff.mp hb2))
      | false =>
        cases hb1 : s1.contains a with
        | true =>
          have h2 : s2.contains a = true := List.elem_iff.mpr ((h a).mp (List.elem_iff.mp hb1))
          rw [hb2] at h2
          exact h2.symm
        | false => rfl
    by_cases hb : s1.contains a = true
    · rw [dedupAux_cons, if_pos hb, dedupAux_cons, if_pos (hc ▸ hb)]
      exact ih s1 s2 h
    · rw [dedupAux_cons, if_neg hb, dedupAux_cons, if_neg (by rw [← hc]; exact hb)]
      refine congrArg (a :: ·) (ih (a :: s1) (a :: s2) ?_)
      intro x
      simp only [List.mem_cons]
      exact or_congr Iff.rfl (h x)

/-- De-duplicating an already once-de-duplicated list again is the same as
one de-duplication, when the inner `seen` is contained in the outer one. -/
lemma dedupAux_absorb : ∀ (l s0 s : List String), (∀ x ∈ s0, x ∈ s) →
    dedupAux (dedupAux l s0) s = dedupAux l s := by
  intro l
  induction l with
  | nil => intro s0 s _; rfl
  | cons a rest ih =>
    intro s0 s hsub
    by_cases h0 : s0.contains a = true
    · have hs : s.contains a = true := List.elem_iff.mpr (hsub a (List.elem_iff.mp h0))
      rw [dedupAux_cons, if_pos h0, dedupAux_cons, if_pos hs]
      exact ih s0 s hsub
    · by_cases hs : s.contains a = true
      · rw [dedupAux_cons, if_neg h0, dedupAux_cons, if_pos hs, dedupAux_cons, if_pos hs]
        refine ih (a :: s0) s ?_
        intro x hx
        rcases List.mem_cons.mp hx with h | h
        · exact h ▸ List.elem_iff.mp hs
        · exact hsub x h
      · rw [dedupAux_cons, if_neg h0, dedupAux_cons, if_neg hs, dedupAux_cons, if_neg hs]
        refine congrArg (a :: ·) (ih (a :: s0) (a :: s) ?_)
        intro x hx
        rcases List.mem_cons.mp hx with h | h
        · exact h ▸ List.mem_cons_self a s
        · exact List.mem_cons_of_mem a (hsub x h)

lemma dedupAux_append : ∀ (xs ys s : List String),
    dedupAux (xs ++ ys) s = dedupAux xs s ++ dedupAux ys (dedupAux xs s ++ s) := by
  intro xs
  induction xs with
  | nil => intro ys s; simp [dedupAux_nil]
  | cons a xs ih =>
    intro ys s
    by_cases hm : s.contains a = true
    · simp only [List.cons_append, dedupAux_cons, if_pos hm]
      exact ih ys s
    · simp only [List.cons_append, dedupAux_cons, if_neg hm]
      rw [ih ys (a :: s)]
      simp only [List.cons_append, List.cons.injEq, true_and]
      refine congrArg (dedupAux xs (a :: s) ++ ·) (dedupAux_congr ys _ _ ?_)
      intro x
      simp only [List.mem_append, List.mem_cons]
      tauto

lemma foldl_addUnseen : ∀ (l out : List String),
    List.foldl addUnseen out l = out ++ dedupAux l out := by
  intro l
  induction l with
  | nil => intro out; simp [dedupAux_nil]
  | cons c rest ih =>
    intro out
    simp only [List.foldl_cons]
    by_cases h : out.contains c = true
    · rw [show addUnseen out c = out from by unfold addUnseen; rw [if_pos h], ih out,
        dedupAux_cons, if_pos h]
    · rw [show addUnseen out c = out ++ [c] from by unfold addUnseen; rw [if_neg h],
        ih (out ++ [c]),
        dedupAux_cons, if_neg h, List.append_assoc, List.singleton_append]
      refine congrArg (out ++ c :: ·) (dedupAux_congr rest _ _ ?_)
      intro x
      simp only [List.mem_append, List.mem_cons]
      tauto

lemma fetch_fold (msgs : List (List Char)) : ∀ (out : List String),
    List.foldl (fun out m => List.foldl addUnseen out (process_message_for_codes m)) out msgs
      = out ++ dedupAux (msgs.flatMap findSixDigitCodes) out := by
  induction msgs with
  | nil => intro out; simp [dedupAux_nil]
  | cons m rest ih =>
    intro out
    simp only [List.foldl_cons, List.flatMap_cons]
    rw [foldl_addUnseen (process_message_for_codes m) out]
    have hpm : dedupAux (process_message_for_codes m) out
        = dedupAux (findSixDigitCodes m) out :=
      dedupAux_absorb (findSixDigitCodes m) [] out (by intro x hx; cases hx)
    rw [hpm, ih (out ++ dedupAux (findSixDigitCodes m) out),
      dedupAux_append (findSixDigitCodes m) (rest.flatMap findSixDigitCodes) out,
      ← List.append_assoc]
    refine congrArg ((out ++ dedupAux (findSixDigitCodes m) out) ++ ·)
      (dedupAux_congr _ _ _ ?_)
    intro x
    simp only [List.mem_append]
    tauto

/-- C9: `fetch_codes_for_address` returns a list in which every element is
exactly six decimal digits, no element repeats, and the list is precisely
the first-occurrence de-duplication of the stream of codes discovered
message by message (order of discovery preserved); on an address without
messages it returns the empty list. -/
theorem fetch_codes_six_digit_unique_ordered (msgs : List (List Char)) :
    (∀ c ∈ fetch_codes_for_address msgs,
        c.length = 6 ∧ c.data.all Char.isDigit = true) ∧
    (fetch_codes_for_address msgs).Nodup ∧
    fetch_codes_for_address msgs = dedupCodes (msgs.flatMap findSixDigitCodes) ∧
    fetch_codes_for_address [] = [] := by
  have he : fetch_codes_for_address msgs = dedupCodes (msgs.flatMap findSixDigitCodes) := by
    unfold fetch_codes_for_address dedupCodes
    simpa using fetch_fold msgs []
  refine ⟨?_, ?_, he, rfl⟩
  · intro c hc
    rw [he] at hc
    have hmem : c ∈ msgs.flatMap findSixDigitCodes := dedupAux_subset _ _ c hc
    rcases List.mem_flatMap.mp hmem with ⟨m, _, hc2⟩
    exact mem_findSixDigitCodes hc2
  · rw [he]
    exact (dedupAux_invariant _ _).2

/-- Witness for C9 on a concrete mailbox with one message whose visible
text repeats the code 123456. -/
theorem fetch_codes_six_digit_unique_ordered_witness :
    ("123456" : String).length = 6 ∧ ("123456" : String).data.all Char.isDigit = true :=
  (fetch_codes_six_digit_unique_ordered
      [("Your code is 123456, again 123456; backup 654321.".data)]).1
    "123456" (by decide)
